import Mathlib

/-!
Verification of the miditosolenoid trigger engine against its specification.

The definitions below are a shallow embedding of the firmware sources:
  - src/src/generative/generative_controller.h / .cpp  (clock, channel bank,
    trigger evaluator, randomizer)
  - src/src/main.cpp  (MIDI trigger path, button debounce state machine)

Machine integers (uint8_t, uint32_t) are modelled as Nat; an explicit
mod 2^32 is applied exactly where the C computation can wrap (the
linear-congruential generator).  The vendored Grids density table is
external to the repository and is treated as an opaque oracle function,
exactly as the specification prescribes.
-/

namespace MidiToSolenoid

/-- kNumChannels from generative_controller.h. -/
def kNumChannels : Nat := 8

/-- kPatternSteps from generative_controller.h. -/
def kPatternSteps : Nat := 32

/-- grids kPulsesPerStep: 3 pulses per step (24 PPQN, spec section 2). -/
def kPulsesPerStep : Nat := 3

/-- grids kStepsPerPattern: 32 steps per pattern. -/
def kStepsPerPattern : Nat := 32

/-- Per-channel state, struct ChannelState in generative_controller.h. -/
structure ChannelState where
  drum_part : Nat
  x : Nat
  y : Nat
  density : Nat
  velocity_bits : Nat
  velocity_step : Nat
deriving Repr, DecidableEq

/-- Default channel value used only as the List.getD fallback. -/
def dch : ChannelState := ⟨0, 0, 0, 0, 0, 0⟩

/-- Fire event, struct FireEvent in generative_controller.h: a channel
bitmask plus a per-channel duration list (0 = no action). -/
structure FireEvent where
  gpio_mask : Nat
  duration_ms : List Nat
deriving Repr, DecidableEq

/-- The empty event built at the top of GenerativeController::Tick. -/
def emptyFireEvent : FireEvent := ⟨0, List.replicate kNumChannels 0⟩

/-- Density oracle: (step, drum_part, x, y) to a level, the abstract
interface of grids PatternGenerator GetDrumMapLevel (spec section 6). -/
abbrev Oracle := Nat → Nat → Nat → Nat → Nat

/-- Controller state: the private fields of class GenerativeController,
plus the (spec-modelled) step position of the vendored Grids engine. -/
structure GenState where
  channels : List ChannelState
  bpm_tenths : Nat
  us_per_pulse : Nat
  us_accumulator : Nat
  current_step : Nat
  pulse_in_step : Nat
  step_evaluated : Bool
  rng_state : Nat
  grids_pulse : Nat
  grids_step : Nat
deriving Repr, DecidableEq

/-- One step of GenerativeController::SimpleRand: a linear-congruential
update on a uint32 state. -/
def lcg (x : Nat) : Nat := (x * 1664525 + 1013904223) % 4294967296

/-- GenerativeController::UpdateUsPerPulse: recomputes us_per_pulse from
bpm_tenths when positive, otherwise leaves it untouched. -/
def UpdateUsPerPulse (s : GenState) : GenState :=
  if s.bpm_tenths > 0 then
    { s with us_per_pulse := 25000000 / s.bpm_tenths }
  else s

/-- GenerativeController::SetBpm: stores the tempo then calls
UpdateUsPerPulse. -/
def SetBpm (s : GenState) (bpm_tenths : Nat) : GenState :=
  UpdateUsPerPulse { s with bpm_tenths := bpm_tenths }

/-- The BPM header printed by GenerativeController::PrintPatterns:
the pair (bpm_tenths / 10, bpm_tenths mod 10). -/
def printPatternsBpmHeader (s : GenState) : Nat × Nat :=
  (s.bpm_tenths / 10, s.bpm_tenths % 10)

/-- The trigger test of the Tick evaluation loop: level strictly greater
than the threshold 255 - density. -/
def channelFires (oracle : Oracle) (step : Nat) (ch : ChannelState) : Bool :=
  decide (255 - ch.density < oracle step ch.drum_part ch.x ch.y)

/-- The duration chosen for a firing channel: 100 ms when bit
velocity_step of velocity_bits is set, 1 ms otherwise. -/
def channelDuration (ch : ChannelState) : Nat :=
  if (ch.velocity_bits >>> ch.velocity_step) &&& 1 = 1 then 100 else 1

/-- The state mutation of a firing channel: velocity_step advances by one
mod kPatternSteps; all other fields unchanged. -/
def channelAdvance (ch : ChannelState) : ChannelState :=
  { ch with velocity_step := (ch.velocity_step + 1) % kPatternSteps }

/-- The per-channel evaluation loop of GenerativeController::Tick
(for i in 0..7): builds the gpio mask (bit i set by or-ing 1 <<< i for a
firing channel), the duration list (position i written for a firing
channel, left 0 otherwise) and the updated channel list.  The C loop
accumulates into a zero-initialised event; the recursion here builds the
same mask (distinct bits, so the or order is immaterial) and the same
positional duration list. -/
def evalChannels (oracle : Oracle) (step : Nat) :
    Nat → List ChannelState → Nat × List Nat × List ChannelState
  | _, [] => (0, [], [])
  | i, ch :: rest =>
    let out := evalChannels oracle step (i + 1) rest
    if channelFires oracle step ch then
      (out.1 ||| (1 <<< i), channelDuration ch :: out.2.1,
       channelAdvance ch :: out.2.2)
    else
      (out.1, 0 :: out.2.1, ch :: out.2.2)

/-- GenerativeController::Tick.  Adds the fixed 1000 us, returns an empty
event when no pulse boundary is reached, otherwise consumes one
us_per_pulse, advances the (spec-modelled) Grids step machinery:
the vendored grids PatternGenerator TickClock and step accessors are not
under src, so their pulse counter is Modelled from the spec: the step
advances every kPulsesPerStep pulses and the controller clamps it to 0 at
kStepsPerPattern.  The step evaluation guard and the evaluation loop
follow the source verbatim. -/
def Tick (oracle : Oracle) (s : GenState) : FireEvent × GenState :=
  let acc := s.us_accumulator + 1000
  if acc < s.us_per_pulse then
    (emptyFireEvent, { s with us_accumulator := acc })
  else
    let acc2 := acc - s.us_per_pulse
    let gp := s.grids_pulse + 1
    let gp2 := if gp ≥ kPulsesPerStep then gp - kPulsesPerStep else gp
    let gs := if gp ≥ kPulsesPerStep then s.grids_step + 1 else s.grids_step
    let gs2 := if gs ≥ kStepsPerPattern then 0 else gs
    let pis := s.pulse_in_step + 1
    let pis2 := if pis ≥ kPulsesPerStep then 0 else pis
    let cstep := if pis ≥ kPulsesPerStep then gs2 else s.current_step
    let seval := if pis ≥ kPulsesPerStep then false else s.step_evaluated
    if seval = false ∧ pis2 = 0 then
      let r := evalChannels oracle cstep 0 s.channels
      (⟨r.1, r.2.1⟩,
       { s with us_accumulator := acc2, grids_pulse := gp2, grids_step := gs2,
                pulse_in_step := pis2, current_step := cstep,
                step_evaluated := true, channels := r.2.2 })
    else
      (emptyFireEvent,
       { s with us_accumulator := acc2, grids_pulse := gp2, grids_step := gs2,
                pulse_in_step := pis2, current_step := cstep,
                step_evaluated := seval })

/-- One channel draw of GenerativeController::Randomize: five successive
SimpleRand draws for drum_part, x, y, density and velocity_bits, with the
threaded generator state returned alongside. -/
def drawChannel (r : Nat) : ChannelState × Nat :=
  let r1 := lcg r
  let r2 := lcg r1
  let r3 := lcg r2
  let r4 := lcg r3
  let r5 := lcg r4
  (⟨r1 % 3, r2 &&& 0xFF, r3 &&& 0xFF, 100 + r4 % 100, r5, 0⟩, r5)

/-- The channel loop of Randomize, threading the generator state. -/
def drawChannels : Nat → Nat → List ChannelState × Nat
  | 0, r => ([], r)
  | n + 1, r =>
    let cr := drawChannel r
    let rest := drawChannels n cr.2
    (cr.1 :: rest.1, rest.2)

/-- GenerativeController::Randomize: re-rolls the eight channels, resets
the step position (the grids PatternGenerator Init reset of the vendored
engine is Modelled from the spec: step position returns to its initial
value), and draws one further SimpleRand value to reseed the grids
internal generator. -/
def Randomize (s : GenState) : GenState :=
  let cs := drawChannels kNumChannels s.rng_state
  let r2 := lcg cs.2
  { s with channels := cs.1, rng_state := r2,
           current_step := 0, pulse_in_step := 0, step_evaluated := false,
           grids_pulse := 0, grids_step := 0 }

/-- Run n Ticks, collecting the fire events in order. -/
def runTicks (oracle : Oracle) : Nat → GenState → List FireEvent
  | 0, _ => []
  | n + 1, s =>
    let r := Tick oracle s
    r.1 :: runTicks oracle n r.2

/-- Run the step-evaluation loop once per entry of a list of step
numbers, returning the final channel list. -/
def runEval (oracle : Oracle) (steps : List Nat) (chs : List ChannelState) :
    List ChannelState :=
  steps.foldl (fun cs st => (evalChannels oracle st 0 cs).2.2) chs

/-- The per-channel trace of runEval: the update a single channel
receives on each evaluated step. -/
def chanRun (oracle : Oracle) (steps : List Nat) (ch : ChannelState) :
    ChannelState :=
  steps.foldl
    (fun c st => if channelFires oracle st c then channelAdvance c else c) ch

/-! ### MIDI trigger path (src/src/main.cpp, handle_midi_packet) -/

/-- The file-scope output state handle_midi_packet mutates: the eight
solenoid GPIO levels, their auto-off deadlines (none = nil_time, some t =
absolute expiry in ms), and the onboard LED with its deadline. -/
structure MidiState where
  gpio_out : List Bool
  gpio_off_deadline : List (Option Nat)
  led : Bool
  led_off_deadline : Option Nat
deriving Repr, DecidableEq

/-- Which printf branch of handle_midi_packet ran: the Note On line, the
Note Off (ignored) line, or the generic message line. -/
inductive MidiLog where
  | noteOn (channel note vel dur : Nat)
  | noteOff (channel note : Nat)
  | other (channel status d1 d2 : Nat)
deriving Repr, DecidableEq

/-- handle_midi_packet from src/src/main.cpp: pulses the LED on any
message; a Note On (high nibble 0x90) with nonzero velocity turns on
GPIO data1 mod 8 and schedules its auto-off at now + 1 + data2*99/127 ms;
Note Off and zero-velocity Note On only log; anything else only logs. -/
def handle_midi_packet (s : MidiState) (now_ms status data1 data2 : Nat) :
    MidiState × MidiLog :=
  let msg_type := status &&& 0xF0
  let channel := (status &&& 0x0F) + 1
  let gpio_index := data1 % kNumChannels
  let s1 : MidiState :=
    { s with led := true, led_off_deadline := some (now_ms + 100) }
  if msg_type = 0x90 ∧ data2 ≠ 0 then
    let duration_ms := 1 + data2 * 99 / 127
    ({ s1 with
        gpio_out := s1.gpio_out.set gpio_index true,
        gpio_off_deadline :=
          s1.gpio_off_deadline.set gpio_index (some (now_ms + duration_ms)) },
     .noteOn channel data1 data2 duration_ms)
  else if msg_type = 0x80 ∨ (msg_type = 0x90 ∧ data2 = 0) then
    (s1, .noteOff channel data1)
  else
    (s1, .other channel status data1 data2)

/-- A fresh MidiState: all outputs low, all deadlines nil. -/
def midiState0 : MidiState :=
  ⟨List.replicate kNumChannels false, List.replicate kNumChannels none,
   false, none⟩

/-! ### Button state machine (src/src/main.cpp, process_button) -/

/-- The file-scope button state of main.cpp. -/
structure ButtonState where
  last_raw : Bool
  stable : Bool
  change_ms : Nat
  press_start_ms : Nat
  handled : Bool
deriving Repr, DecidableEq

/-- DEBOUNCE_MS from main.cpp. -/
def DEBOUNCE_MS : Nat := 50

/-- LONG_PRESS_MS from main.cpp. -/
def LONG_PRESS_MS : Nat := 1000

/-- process_button from src/src/main.cpp, with the (already inverted)
raw reading passed in.  Returns the updated state and the action code:
0 = none, 1 = short press, 2 = long press.  The uint32 timestamp
subtractions are modelled on Nat, which agrees with the C semantics for
the monotone in-range timestamps the driver supplies. -/
def process_button (s : ButtonState) (now_ms : Nat) (raw : Bool) :
    ButtonState × Nat :=
  let s :=
    if raw != s.last_raw then { s with last_raw := raw, change_ms := now_ms }
    else s
  if now_ms - s.change_ms < DEBOUNCE_MS then (s, 0)
  else
    let prev_stable := s.stable
    let s := { s with stable := raw }
    if s.stable ∧ ¬prev_stable then
      ({ s with press_start_ms := now_ms, handled := false }, 0)
    else if s.stable ∧ ¬s.handled ∧ now_ms - s.press_start_ms ≥ LONG_PRESS_MS then
      ({ s with handled := true }, 2)
    else if ¬s.stable ∧ prev_stable ∧ ¬s.handled then
      ({ s with handled := true }, 1)
    else (s, 0)

/-- The boot-time button state of main.cpp. -/
def buttonState0 : ButtonState := ⟨false, false, 0, 0, false⟩

/-- Feed a trace of (timestamp, raw) samples through process_button,
collecting the action codes in order. -/
def runButton (s : ButtonState) : List (Nat × Bool) → List Nat
  | [] => []
  | (t, r) :: rest =>
    let a := process_button s t r
    a.2 :: runButton a.1 rest

/-- A trace keeps bouncing when, at each sample, either the raw value
just changed or the signal has been stable for less than the debounce
window. -/
def bouncyRun (s : ButtonState) : List (Nat × Bool) → Bool
  | [] => true
  | (t, r) :: rest =>
    ((r != s.last_raw) || decide (t - s.change_ms < DEBOUNCE_MS)) &&
      bouncyRun (process_button s t r).1 rest

/-! ### Concrete fixtures used by witnesses -/

/-- A concrete controller state used by witnesses. -/
def demoGen : GenState :=
  ⟨List.replicate kNumChannels dch, 1200, 20833, 0, 0, 0, false,
   0x12345678, 0, 0⟩

/-- The constant maximum-level oracle of the end-to-end scenario. -/
def oracle255 : Oracle := fun _ _ _ _ => 255

/-! ### Claims about the tempo setter (C2, C10) -/

/-- Claim C2: for every tempo value T greater than 0, setting the tempo
computes us_per_pulse = 25000000 / T by integer division; setting a tempo
of 0 leaves the previously computed us_per_pulse unchanged, so no
division by zero occurs. -/
theorem claim_C2_set_tempo (s : GenState) (T : Nat) :
    (0 < T → (SetBpm s T).us_per_pulse = 25000000 / T) ∧
    (SetBpm s 0).us_per_pulse = s.us_per_pulse := by
  constructor
  · intro hT
    simp [SetBpm, UpdateUsPerPulse, hT]
  · simp [SetBpm, UpdateUsPerPulse]

/-- Witness for claim C2 at tempo 1200 (120.0 BPM). -/
theorem claim_C2_witness :
    0 < 1200 ∧ (SetBpm demoGen 1200).us_per_pulse = 25000000 / 1200 ∧
    (SetBpm demoGen 0).us_per_pulse = demoGen.us_per_pulse :=
  ⟨by decide, (claim_C2_set_tempo demoGen 1200).1 (by decide),
   (claim_C2_set_tempo demoGen 1200).2⟩

/-- Claim C10: SetBpm 0 preserves us_per_pulse but still overwrites the
stored bpm_tenths field to 0, so the pattern-dump header reports 0.0 BPM
while the pulse duration is unchanged. -/
theorem claim_C10_zero_bpm_frame (s : GenState) :
    (SetBpm s 0).bpm_tenths = 0 ∧
    (SetBpm s 0).us_per_pulse = s.us_per_pulse ∧
    printPatternsBpmHeader (SetBpm s 0) = (0, 0) := by
  refine ⟨?_, ?_, ?_⟩ <;>
    simp [SetBpm, UpdateUsPerPulse, printPatternsBpmHeader]

/-! ### Claims about the MIDI trigger path (C5, C8) -/

/-- Claim C5: only a Note On (status high nibble 0x90) with velocity
greater than 0 produces an actuation; the target channel is the note
number mod 8 and the pulse duration is 1 + velocity * 99 / 127 ms; in
particular velocity 127 gives 100 ms and velocity 64 gives exactly
50 ms. -/
theorem claim_C5_midi_trigger (s : MidiState) (now status d1 d2 : Nat) :
    (status &&& 0xF0 = 0x90 → d2 ≠ 0 →
      (handle_midi_packet s now status d1 d2).1.gpio_out =
        s.gpio_out.set (d1 % 8) true ∧
      (handle_midi_packet s now status d1 d2).1.gpio_off_deadline =
        s.gpio_off_deadline.set (d1 % 8) (some (now + (1 + d2 * 99 / 127)))) ∧
    (¬(status &&& 0xF0 = 0x90 ∧ d2 ≠ 0) →
      (handle_midi_packet s now status d1 d2).1.gpio_out = s.gpio_out ∧
      (handle_midi_packet s now status d1 d2).1.gpio_off_deadline =
        s.gpio_off_deadline) ∧
    (handle_midi_packet midiState0 0 0x90 5 127).1.gpio_off_deadline.getD 5
        none = some 100 ∧
    (handle_midi_packet midiState0 0 0x90 3 64).1.gpio_off_deadline.getD 3
        none = some 50 := by
  refine ⟨?_, ?_, by decide, by decide⟩
  · intro h1 h2
    simp [handle_midi_packet, kNumChannels, h1, h2]
  · intro h
    simp only [handle_midi_packet]
    rw [if_neg h]
    split <;> exact ⟨rfl, rfl⟩

/-- Witness for claim C5 on a concrete Note On packet. -/
theorem claim_C5_witness :
    ((0x92 : Nat) &&& 0xF0 = 0x90 ∧ (100 : Nat) ≠ 0 ∧
      (handle_midi_packet midiState0 7 0x92 11 100).1.gpio_out =
        midiState0.gpio_out.set (11 % 8) true) ∧
    ¬((0x80 : Nat) &&& 0xF0 = 0x90 ∧ (64 : Nat) ≠ 0) ∧
    (handle_midi_packet midiState0 7 0x80 11 64).1.gpio_out =
      midiState0.gpio_out :=
  ⟨⟨by decide, by decide,
    ((claim_C5_midi_trigger midiState0 7 0x92 11 100).1 (by decide)
      (by decide)).1⟩,
   by decide,
   ((claim_C5_midi_trigger midiState0 7 0x80 11 64).2.1 (by decide)).1⟩

/-- Claim C8: a Note Off (high nibble 0x80) or a zero-velocity Note On
changes neither a solenoid output nor a solenoid off-deadline and is only
logged; any other status high nibble (not 0x80 or 0x90) is logged and
otherwise discarded with no actuation. -/
theorem claim_C8_midi_ignored (s : MidiState) (now status d1 d2 : Nat) :
    ((status &&& 0xF0 = 0x80 ∨ (status &&& 0xF0 = 0x90 ∧ d2 = 0)) →
      (handle_midi_packet s now status d1 d2).1.gpio_out = s.gpio_out ∧
      (handle_midi_packet s now status d1 d2).1.gpio_off_deadline =
        s.gpio_off_deadline ∧
      (handle_midi_packet s now status d1 d2).2 =
        .noteOff ((status &&& 0x0F) + 1) d1) ∧
    (status &&& 0xF0 ≠ 0x80 → status &&& 0xF0 ≠ 0x90 →
      (handle_midi_packet s now status d1 d2).1.gpio_out = s.gpio_out ∧
      (handle_midi_packet s now status d1 d2).1.gpio_off_deadline =
        s.gpio_off_deadline ∧
      (handle_midi_packet s now status d1 d2).2 =
        .other ((status &&& 0x0F) + 1) status d1 d2) := by
  constructor
  · intro h
    have hno : ¬(status &&& 0xF0 = 0x90 ∧ d2 ≠ 0) := by
      rcases h with h | ⟨h, hz⟩
      · intro ⟨hc, _⟩; rw [h] at hc; exact absurd hc (by decide)
      · intro ⟨_, hc⟩; exact hc hz
    simp only [handle_midi_packet]
    rw [if_neg hno, if_pos h]
    exact ⟨rfl, rfl, rfl⟩
  · intro h80 h90
    have hno : ¬(status &&& 0xF0 = 0x90 ∧ d2 ≠ 0) := fun ⟨hc, _⟩ => h90 hc
    have hno2 : ¬(status &&& 0xF0 = 0x80 ∨ (status &&& 0xF0 = 0x90 ∧ d2 = 0)) := by
      rintro (h | ⟨h, _⟩)
      · exact h80 h
      · exact h90 h
    simp only [handle_midi_packet]
    rw [if_neg hno, if_neg hno2]
    exact ⟨rfl, rfl, rfl⟩

/-- Witness for claim C8 on a concrete Note Off packet and a concrete
control-change packet. -/
theorem claim_C8_witness :
    ((0x81 : Nat) &&& 0xF0 = 0x80 ∨ ((0x81 : Nat) &&& 0xF0 = 0x90 ∧ (64 : Nat) = 0)) ∧
    (handle_midi_packet midiState0 5 0x81 9 64).1.gpio_out =
      midiState0.gpio_out ∧
    (handle_midi_packet midiState0 5 0xB0 9 64).2 =
      .other (((0xB0 : Nat) &&& 0x0F) + 1) 0xB0 9 64 :=
  ⟨Or.inl (by decide),
   ((claim_C8_midi_ignored midiState0 5 0x81 9 64).1 (Or.inl (by decide))).1,
   ((claim_C8_midi_ignored midiState0 5 0xB0 9 64).2 (by decide) (by decide)).2.2⟩

/-! ### Structure of the step-evaluation loop (shared lemmas) -/

/-- The channel-list output of the evaluation loop is the pointwise
update: advance the cursor of each firing channel, leave the rest
untouched. -/
theorem evalChannels_channels (o : Oracle) (st : Nat) :
    ∀ (chs : List ChannelState) (i : Nat),
      (evalChannels o st i chs).2.2 =
        chs.map (fun ch =>
          if channelFires o st ch then channelAdvance ch else ch) := by
  intro chs
  induction chs with
  | nil => intro i; rfl
  | cons ch rest ih =>
    intro i
    simp only [evalChannels, List.map_cons]
    by_cases h : channelFires o st ch = true <;> simp [h, ih (i + 1)]

/-- The duration-list output of the evaluation loop is the pointwise
duration: 100 or 1 for a firing channel, 0 otherwise. -/
theorem evalChannels_durations (o : Oracle) (st : Nat) :
    ∀ (chs : List ChannelState) (i : Nat),
      (evalChannels o st i chs).2.1 =
        chs.map (fun ch =>
          if channelFires o st ch then channelDuration ch else 0) := by
  intro chs
  induction chs with
  | nil => intro i; rfl
  | cons ch rest ih =>
    intro i
    simp only [evalChannels, List.map_cons]
    by_cases h : channelFires o st ch = true <;> simp [h, ih (i + 1)]

/-- Bits below the running loop index are never set by the evaluation
loop. -/
theorem evalChannels_mask_lt (o : Oracle) (st : Nat) :
    ∀ (chs : List ChannelState) (i k : Nat), k < i →
      Nat.testBit (evalChannels o st i chs).1 k = false := by
  intro chs
  induction chs with
  | nil => intro i k _; simp [evalChannels]
  | cons ch rest ih =>
    intro i k hk
    simp only [evalChannels]
    by_cases h : channelFires o st ch = true
    · simp only [h, if_true]
      rw [Nat.testBit_lor, ih (i + 1) k (Nat.lt_succ_of_lt hk),
          Nat.one_shiftLeft, Nat.testBit_two_pow_of_ne (Nat.ne_of_gt hk)]
      rfl
    · simp only [h, if_false]
      exact ih (i + 1) k (Nat.lt_succ_of_lt hk)

/-- Bit i + j of the loop mask is exactly the firing flag of the j-th
remaining channel. -/
theorem evalChannels_mask_get (o : Oracle) (st : Nat) :
    ∀ (chs : List ChannelState) (i j : Nat), j < chs.length →
      Nat.testBit (evalChannels o st i chs).1 (i + j) =
        channelFires o st (chs.getD j dch) := by
  intro chs
  induction chs with
  | nil => intro i j hj; simp at hj
  | cons ch rest ih =>
    intro i j hj
    cases j with
    | zero =>
      simp only [evalChannels, Nat.add_zero, List.getD_cons_zero]
      by_cases h : channelFires o st ch = true
      · simp only [h, if_true]
        rw [Nat.testBit_lor,
            evalChannels_mask_lt o st rest (i + 1) i (Nat.lt_succ_self i),
            Nat.one_shiftLeft, Nat.testBit_two_pow_self]
        rfl
      · simp only [h, Bool.false_eq_true, if_false]
        rw [evalChannels_mask_lt o st rest (i + 1) i (Nat.lt_succ_self i)]
    | succ j' =>
      have hj' : j' < rest.length := by
        simpa using Nat.lt_of_succ_lt_succ hj
      have harith : i + (j' + 1) = (i + 1) + j' := by omega
      simp only [evalChannels, List.getD_cons_succ, harith]
      by_cases h : channelFires o st ch = true
      · simp only [h, if_true]
        rw [Nat.testBit_lor, ih (i + 1) j' hj', Nat.one_shiftLeft,
            Nat.testBit_two_pow_of_ne (by omega)]
        simp
      · simp only [h, if_false]
        exact ih (i + 1) j' hj'

/-! ### Claim C1: the per-step trigger evaluation -/

/-- Claim C1: on each step evaluation, channel j fires iff the oracle
level for (step, drum_part, x, y) strictly exceeds 255 - density; a
firing channel's duration is 100 ms when bit velocity_step of
velocity_bits is 1 and 1 ms otherwise; bit j of the returned bitmask is
set iff channel j fired, and the duration entry is nonzero exactly for
firing channels. -/
theorem claim_C1_step_evaluation (o : Oracle) (st : Nat)
    (chs : List ChannelState) (j : Nat) (hj : j < chs.length) :
    (Nat.testBit (evalChannels o st 0 chs).1 j = true ↔
      255 - (chs.getD j dch).density <
        o st (chs.getD j dch).drum_part (chs.getD j dch).x
          (chs.getD j dch).y) ∧
    ((evalChannels o st 0 chs).2.1.getD j 0 =
      if channelFires o st (chs.getD j dch) then
        (if ((chs.getD j dch).velocity_bits >>>
              (chs.getD j dch).velocity_step) &&& 1 = 1 then 100 else 1)
      else 0) ∧
    ((evalChannels o st 0 chs).2.1.getD j 0 ≠ 0 ↔
      channelFires o st (chs.getD j dch) = true) := by
  have hmask : Nat.testBit (evalChannels o st 0 chs).1 j =
      channelFires o st (chs.getD j dch) := by
    have := evalChannels_mask_get o st chs 0 j hj
    simpa using this
  have hlen : j < ((evalChannels o st 0 chs).2.1).length := by
    rw [evalChannels_durations o st chs 0, List.length_map]; exact hj
  have hdur : (evalChannels o st 0 chs).2.1.getD j 0 =
      if channelFires o st (chs.getD j dch) then
        channelDuration (chs.getD j dch) else 0 := by
    rw [List.getD_eq_getElem _ _ hlen]
    rw [List.getD_eq_getElem _ _ hj]
    simp only [evalChannels_durations o st chs 0]
    rw [List.getElem_map]
  refine ⟨?_, ?_, ?_⟩
  · rw [hmask]
    simp [channelFires]
  · rw [hdur]
    rfl
  · rw [hdur]
    by_cases h : channelFires o st (chs.getD j dch) = true
    · rw [if_pos h]
      have hne : channelDuration (chs.getD j dch) ≠ 0 := by
        unfold channelDuration; split <;> omega
      exact ⟨fun _ => h, fun _ => hne⟩
    · rw [if_neg h]
      exact ⟨fun hne => absurd rfl hne, fun hc => absurd hc h⟩

/-- Witness for claim C1 on a concrete channel bank. -/
theorem claim_C1_witness :
    (0 : Nat) < (List.replicate 8 (⟨1, 10, 20, 200, 5, 0⟩ : ChannelState)).length ∧
    (Nat.testBit
        (evalChannels oracle255 0 0
          (List.replicate 8 (⟨1, 10, 20, 200, 5, 0⟩ : ChannelState))).1 0 = true ↔
      255 - ((List.replicate 8 (⟨1, 10, 20, 200, 5, 0⟩ : ChannelState)).getD 0
          dch).density <
        oracle255 0
          ((List.replicate 8 (⟨1, 10, 20, 200, 5, 0⟩ : ChannelState)).getD 0
            dch).drum_part
          ((List.replicate 8 (⟨1, 10, 20, 200, 5, 0⟩ : ChannelState)).getD 0
            dch).x
          ((List.replicate 8 (⟨1, 10, 20, 200, 5, 0⟩ : ChannelState)).getD 0
            dch).y) :=
  ⟨by decide,
   (claim_C1_step_evaluation oracle255 0
      (List.replicate 8 (⟨1, 10, 20, 200, 5, 0⟩ : ChannelState)) 0
      (by decide)).1⟩

/-! ### Claim C3: the cursor advances exactly on firing evaluations -/

/-- Claim C3: on a step evaluation the velocity cursor of channel j
advances by exactly one mod 32 iff the channel fires; on a non-firing
evaluation the whole channel record, cursor included, is unchanged, and
a firing evaluation changes no field other than the cursor. -/
theorem claim_C3_cursor_iff_fire (o : Oracle) (st : Nat)
    (chs : List ChannelState) (j : Nat) (hj : j < chs.length) :
    (channelFires o st (chs.getD j dch) = true →
      ((evalChannels o st 0 chs).2.2.getD j dch).velocity_step =
        ((chs.getD j dch).velocity_step + 1) % 32 ∧
      ((evalChannels o st 0 chs).2.2.getD j dch).velocity_step ≠
        (chs.getD j dch).velocity_step ∧
      ((evalChannels o st 0 chs).2.2.getD j dch).drum_part =
        (chs.getD j dch).drum_part ∧
      ((evalChannels o st 0 chs).2.2.getD j dch).x = (chs.getD j dch).x ∧
      ((evalChannels o st 0 chs).2.2.getD j dch).y = (chs.getD j dch).y ∧
      ((evalChannels o st 0 chs).2.2.getD j dch).density =
        (chs.getD j dch).density ∧
      ((evalChannels o st 0 chs).2.2.getD j dch).velocity_bits =
        (chs.getD j dch).velocity_bits) ∧
    (channelFires o st (chs.getD j dch) = false →
      (evalChannels o st 0 chs).2.2.getD j dch = chs.getD j dch) := by
  have hlen : j < ((evalChannels o st 0 chs).2.2).length := by
    rw [evalChannels_channels o st chs 0, List.length_map]; exact hj
  have hch : (evalChannels o st 0 chs).2.2.getD j dch =
      (if channelFires o st (chs.getD j dch) then
        channelAdvance (chs.getD j dch) else chs.getD j dch) := by
    rw [List.getD_eq_getElem _ _ hlen]
    rw [List.getD_eq_getElem _ _ hj]
    simp only [evalChannels_channels o st chs 0]
    rw [List.getElem_map]
  constructor
  · intro h
    rw [hch, if_pos h]
    refine ⟨rfl, ?_, rfl, rfl, rfl, rfl, rfl⟩
    simp only [channelAdvance, kPatternSteps]
    omega
  · intro h
    rw [hch, if_neg (by rw [h]; exact Bool.false_ne_true)]

/-- Witness for claim C3 on a concrete channel bank: channel 0 fires
(density 200, level 255) and its cursor advances from 5 to 6. -/
theorem claim_C3_witness :
    channelFires oracle255 0
      ((List.replicate 8 (⟨1, 10, 20, 200, 5, 5⟩ : ChannelState)).getD 0 dch)
      = true ∧
    ((evalChannels oracle255 0 0
        (List.replicate 8 (⟨1, 10, 20, 200, 5, 5⟩ : ChannelState))).2.2.getD 0
        dch).velocity_step =
      (((List.replicate 8 (⟨1, 10, 20, 200, 5, 5⟩ : ChannelState)).getD 0
          dch).velocity_step + 1) % 32 :=
  ⟨by decide,
   ((claim_C3_cursor_iff_fire oracle255 0
      (List.replicate 8 (⟨1, 10, 20, 200, 5, 5⟩ : ChannelState)) 0
      (by decide)).1 (by decide)).1⟩

/-! ### Claim C9: mod-32 cursor round trip over 32 firing steps -/

/-- One step evaluation preserves the channel-list length. -/
theorem evalChannels_length (o : Oracle) (st : Nat)
    (chs : List ChannelState) :
    (evalChannels o st 0 chs).2.2.length = chs.length := by
  rw [evalChannels_channels o st chs 0, List.length_map]

/-- Advancing the cursor leaves the firing test unchanged: the test reads
only drum_part, x, y and density. -/
theorem channelFires_channelAdvance (o : Oracle) (st : Nat)
    (ch : ChannelState) :
    channelFires o st (channelAdvance ch) = channelFires o st ch := rfl

/-- The channel a step evaluation leaves at position j is the per-channel
update of the channel that was there. -/
theorem evalChannels_getD (o : Oracle) (st : Nat) (chs : List ChannelState)
    (j : Nat) (hj : j < chs.length) :
    (evalChannels o st 0 chs).2.2.getD j dch =
      (if channelFires o st (chs.getD j dch) then
        channelAdvance (chs.getD j dch) else chs.getD j dch) := by
  have hlen : j < ((evalChannels o st 0 chs).2.2).length := by
    rw [evalChannels_length]; exact hj
  rw [List.getD_eq_getElem _ _ hlen, List.getD_eq_getElem _ _ hj]
  simp only [evalChannels_channels o st chs 0]
  rw [List.getElem_map]

/-- Iterated step evaluation acts on each channel slot independently: the
slot-j trace of runEval is chanRun of the slot-j channel. -/
theorem runEval_getD (o : Oracle) :
    ∀ (steps : List Nat) (chs : List ChannelState) (j : Nat),
      j < chs.length →
      (runEval o steps chs).getD j dch = chanRun o steps (chs.getD j dch) := by
  intro steps
  induction steps with
  | nil => intro chs j hj; rfl
  | cons st rest ih =>
    intro chs j hj
    have h1 : runEval o (st :: rest) chs =
        runEval o rest (evalChannels o st 0 chs).2.2 := rfl
    have h2 : chanRun o (st :: rest) (chs.getD j dch) =
        chanRun o rest
          (if channelFires o st (chs.getD j dch) then
            channelAdvance (chs.getD j dch) else chs.getD j dch) := rfl
    rw [h1, h2, ih _ j (by rw [evalChannels_length]; exact hj),
        evalChannels_getD o st chs j hj]

/-- chanRun leaves the non-cursor parameters of a channel unchanged. -/
theorem chanRun_params (o : Oracle) :
    ∀ (steps : List Nat) (ch : ChannelState),
      (chanRun o steps ch).drum_part = ch.drum_part ∧
      (chanRun o steps ch).x = ch.x ∧
      (chanRun o steps ch).y = ch.y ∧
      (chanRun o steps ch).density = ch.density ∧
      (chanRun o steps ch).velocity_bits = ch.velocity_bits := by
  intro steps
  induction steps with
  | nil => intro ch; exact ⟨rfl, rfl, rfl, rfl, rfl⟩
  | cons st rest ih =>
    intro ch
    have h : chanRun o (st :: rest) ch =
        chanRun o rest
          (if channelFires o st ch then channelAdvance ch else ch) := rfl
    rw [h]
    by_cases hf : channelFires o st ch = true
    · rw [if_pos hf]; exact ih (channelAdvance ch)
    · rw [if_neg hf]; exact ih ch

/-- On a run in which the channel fires at every step, the cursor ends
at its start plus the number of steps, mod 32 (and stays below 32). -/
theorem chanRun_all_fire_cursor (o : Oracle) :
    ∀ (steps : List Nat) (ch : ChannelState),
      (∀ st ∈ steps, channelFires o st ch = true) →
      ch.velocity_step < 32 →
      (chanRun o steps ch).velocity_step =
        (ch.velocity_step + steps.length) % 32 ∧
      (chanRun o steps ch).velocity_step < 32 := by
  intro steps
  induction steps with
  | nil =>
    intro ch _ hlt
    constructor
    · show ch.velocity_step = (ch.velocity_step + 0) % 32
      rw [Nat.add_zero, Nat.mod_eq_of_lt hlt]
    · exact hlt
  | cons st rest ih =>
    intro ch hfire hlt
    have hst : channelFires o st ch = true := hfire st (List.mem_cons_self st rest)
    have h : chanRun o (st :: rest) ch = chanRun o rest (channelAdvance ch) := by
      show chanRun o rest
          (if channelFires o st ch then channelAdvance ch else ch) =
        chanRun o rest (channelAdvance ch)
      rw [if_pos hst]
    have hadv : (channelAdvance ch).velocity_step =
        (ch.velocity_step + 1) % 32 := rfl
    have hadvlt : (channelAdvance ch).velocity_step < 32 := by
      rw [hadv]; exact Nat.mod_lt _ (by omega)
    have hrest : ∀ st' ∈ rest, channelFires o st' (channelAdvance ch) = true := by
      intro st' hmem
      rw [channelFires_channelAdvance]
      exact hfire st' (List.mem_cons_of_mem st hmem)
    obtain ⟨ihv, ihlt⟩ := ih (channelAdvance ch) hrest hadvlt
    refine ⟨?_, by rw [h]; exact ihlt⟩
    rw [h, ihv, hadv, Nat.mod_add_mod]
    congr 1
    simp [List.length_cons]
    omega

/-- A concrete always-firing channel bank: density 255 leaves the trigger
bar at 0 and the constant oracle level 255 exceeds it on every step. -/
def demoChs : List ChannelState :=
  List.replicate kNumChannels ⟨1, 10, 20, 255, 0xAAAAAAAA, 0⟩

/-- Claim C9: a channel that fires on every one of 32 consecutive step
evaluations has, after exactly 32 fires, a velocity cursor equal to its
starting value, having wrapped exactly once: after the first k fires
(k below 32) the cursor sits at start + k mod 32. -/
theorem claim_C9_cursor_round_trip (o : Oracle) (steps : List Nat)
    (chs : List ChannelState) (j : Nat) (hj : j < chs.length)
    (hlen : steps.length = 32)
    (hcur : (chs.getD j dch).velocity_step < 32)
    (hfire : ∀ st ∈ steps, channelFires o st (chs.getD j dch) = true) :
    ((runEval o steps chs).getD j dch).velocity_step =
      (chs.getD j dch).velocity_step ∧
    (∀ k, k < 32 →
      ((runEval o (steps.take k) chs).getD j dch).velocity_step =
        ((chs.getD j dch).velocity_step + k) % 32) := by
  constructor
  · rw [runEval_getD o steps chs j hj,
        (chanRun_all_fire_cursor o steps _ hfire hcur).1, hlen,
        Nat.add_mod_right, Nat.mod_eq_of_lt hcur]
  · intro k hk
    have htake : ∀ st ∈ steps.take k,
        channelFires o st (chs.getD j dch) = true :=
      fun st hm => hfire st (List.take_subset k steps hm)
    have hklen : (steps.take k).length = k := by
      rw [List.length_take, hlen]; omega
    rw [runEval_getD o _ chs j hj,
        (chanRun_all_fire_cursor o _ _ htake hcur).1, hklen]

/-- Witness for claim C9 on the concrete always-firing bank over the 32
pattern steps. -/
theorem claim_C9_witness :
    (List.range 32).length = 32 ∧
    (demoChs.getD 0 dch).velocity_step < 32 ∧
    ((runEval oracle255 (List.range 32) demoChs).getD 0 dch).velocity_step =
      (demoChs.getD 0 dch).velocity_step :=
  ⟨by decide, by decide,
   (claim_C9_cursor_round_trip oracle255 (List.range 32) demoChs 0
      (by decide) (by decide) (by decide) (by decide)).1⟩

/-! ### Claim C4: accumulator surplus and one pulse per call -/

/-- A concrete state with us_per_pulse 400 (so one 1000 us call spans two
whole pulses plus 200 us surplus). -/
def c4State : GenState :=
  ⟨List.replicate kNumChannels dch, 62500, 400, 0, 0, 0, false, 1, 0, 0⟩

/-- Counterexample to claim C4 as stated: with us_per_pulse 400 and an
empty accumulator, one Tick call accumulates 1000 us, which spans two
whole pulses; the call reports one pulse but leaves 600 us in the
accumulator, so a whole elapsed pulse remains unconsumed there, instead
of the claimed consume-down-to-the-surplus 1000 mod 400 = 200. -/
theorem claim_C4_counterexample :
    c4State.us_per_pulse = 400 ∧
    (Tick oracle255 c4State).2.us_accumulator = 600 ∧
    c4State.us_per_pulse ≤ (Tick oracle255 c4State).2.us_accumulator ∧
    (Tick oracle255 c4State).2.us_accumulator ≠
      (c4State.us_accumulator + 1000) % c4State.us_per_pulse := by
  refine ⟨rfl, ?_, ?_, ?_⟩ <;> decide

/-- Claim C4 as amended: a boundary-crossing call decrements the
accumulator by exactly one us_per_pulse, keeping the surplus (never
resetting to zero) and advancing the pulse position exactly once; any
further whole pulses stay in the accumulator for later calls.  A
non-crossing call only accumulates and returns the empty event. -/
theorem claim_C4_amended (o : Oracle) (s : GenState) :
    (s.us_per_pulse ≤ s.us_accumulator + 1000 →
      (Tick o s).2.us_accumulator =
        s.us_accumulator + 1000 - s.us_per_pulse ∧
      (Tick o s).2.pulse_in_step =
        (if kPulsesPerStep ≤ s.pulse_in_step + 1 then 0
         else s.pulse_in_step + 1)) ∧
    (s.us_accumulator + 1000 < s.us_per_pulse →
      (Tick o s).2.us_accumulator = s.us_accumulator + 1000 ∧
      (Tick o s).1 = emptyFireEvent ∧
      (Tick o s).2.pulse_in_step = s.pulse_in_step) := by
  constructor
  · intro h
    have hno : ¬(s.us_accumulator + 1000 < s.us_per_pulse) := by omega
    simp only [Tick]
    rw [if_neg hno]
    split <;> simp [kPulsesPerStep]
  · intro h
    simp only [Tick]
    rw [if_pos h]
    exact ⟨rfl, rfl, rfl⟩

/-- Witness for (the amended) claim C4 at the concrete crossing state and
at a concrete non-crossing state. -/
theorem claim_C4_witness :
    (c4State.us_per_pulse ≤ c4State.us_accumulator + 1000 ∧
      (Tick oracle255 c4State).2.us_accumulator =
        c4State.us_accumulator + 1000 - c4State.us_per_pulse) ∧
    (demoGen.us_accumulator + 1000 < demoGen.us_per_pulse ∧
      (Tick oracle255 demoGen).2.us_accumulator =
        demoGen.us_accumulator + 1000) :=
  ⟨⟨by decide,
    ((claim_C4_amended oracle255 c4State).1 (by decide)).1⟩,
   ⟨by decide,
    ((claim_C4_amended oracle255 demoGen).2 (by decide)).1⟩⟩

/-! ### Claim C6: button debounce and press classification -/

/-- A single call whose raw input just changed, or whose signal has been
stable for less than the debounce window, emits no action. -/
theorem process_button_bouncy_step (s : ButtonState) (t : Nat) (r : Bool)
    (h : ((r != s.last_raw) || decide (t - s.change_ms < DEBOUNCE_MS)) = true) :
    (process_button s t r).2 = 0 := by
  by_cases hc : (r != s.last_raw) = true
  · simp [process_button, hc, DEBOUNCE_MS]
  · have hlt : t - s.change_ms < DEBOUNCE_MS := by
      rw [Bool.or_eq_true] at h
      rcases h with h | h
      · exact absurd h hc
      · exact of_decide_eq_true h
    simp only [process_button, hc, Bool.false_eq_true, if_false]
    rw [if_pos hlt]

/-- Along a trace that keeps bouncing inside the debounce window, every
emitted action is 0. -/
theorem runButton_bouncy (s : ButtonState) (tr : List (Nat × Bool))
    (h : bouncyRun s tr = true) : ∀ a ∈ runButton s tr, a = 0 := by
  induction tr generalizing s with
  | nil => intro a ha; simp [runButton] at ha
  | cons p rest ih =>
    obtain ⟨t, r⟩ := p
    simp only [bouncyRun, Bool.and_eq_true] at h
    obtain ⟨h1, h2⟩ := h
    intro a ha
    simp only [runButton, List.mem_cons] at ha
    rcases ha with ha | ha
    · rw [ha]; exact process_button_bouncy_step s t r h1
    · exact ih _ h2 a ha

/-- A clean press trace, sampled every 1 ms: idle, pressed from 200 ms to
1400 ms (held 1200 ms), then released, observed until 1600 ms. -/
def longPressTrace : List (Nat × Bool) :=
  (List.range 1600).map (fun t => (t, decide (200 ≤ t) && decide (t < 1400)))

/-- A clean short-press trace: pressed from 200 ms to 400 ms (held
200 ms), observed until 600 ms. -/
def shortPressTrace : List (Nat × Bool) :=
  (List.range 600).map (fun t => (t, decide (200 ≤ t) && decide (t < 400)))

/-- A bouncing trace: the raw reading toggles every 5 ms for 60 ms
(more than 10 toggles inside the 50 ms window). -/
def bounceTrace : List (Nat × Bool) :=
  (List.range 60).map (fun t => (t, decide ((t / 5) % 2 = 1)))

set_option maxRecDepth 100000 in
/-- Claim C6: a raw signal that keeps toggling within the 50 ms debounce
window produces zero ShortPress and zero LongPress actions; a clean press
held 1200 ms produces exactly one LongPress and zero ShortPress; a clean
press held 200 ms then released produces exactly one ShortPress and no
LongPress. -/
theorem claim_C6_button (s : ButtonState) (tr : List (Nat × Bool))
    (h : bouncyRun s tr = true) :
    ((runButton s tr).count 1 = 0 ∧ (runButton s tr).count 2 = 0) ∧
    ((runButton buttonState0 longPressTrace).count 2 = 1 ∧
     (runButton buttonState0 longPressTrace).count 1 = 0) ∧
    ((runButton buttonState0 shortPressTrace).count 1 = 1 ∧
     (runButton buttonState0 shortPressTrace).count 2 = 0) := by
  refine ⟨⟨?_, ?_⟩, by decide, by decide⟩
  · exact List.count_eq_zero.mpr
      (fun hm => absurd (runButton_bouncy s tr h 1 hm) (by decide))
  · exact List.count_eq_zero.mpr
      (fun hm => absurd (runButton_bouncy s tr h 2 hm) (by decide))

set_option maxRecDepth 100000 in
/-- Witness for claim C6 on the concrete bouncing trace. -/
theorem claim_C6_witness :
    bouncyRun buttonState0 bounceTrace = true ∧
    (runButton buttonState0 bounceTrace).count 1 = 0 ∧
    (runButton buttonState0 bounceTrace).count 2 = 0 :=
  ⟨by decide,
   (claim_C6_button buttonState0 bounceTrace (by decide)).1.1,
   (claim_C6_button buttonState0 bounceTrace (by decide)).1.2⟩

/-! ### Claim C7: randomizer determinism, ranges, generator discipline -/

/-- Each single channel draw stays in range: drum_part below 3, x and y
at most 255, density in 100..199, velocity_bits below 2 to the 32. -/
theorem drawChannel_ranges (r : Nat) :
    (drawChannel r).1.drum_part < 3 ∧
    (drawChannel r).1.x ≤ 255 ∧
    (drawChannel r).1.y ≤ 255 ∧
    100 ≤ (drawChannel r).1.density ∧
    (drawChannel r).1.density ≤ 199 ∧
    (drawChannel r).1.velocity_bits < 4294967296 := by
  refine ⟨?_, ?_, ?_, ?_, ?_, ?_⟩
  · exact Nat.mod_lt _ (by omega)
  · exact Nat.and_le_right
  · exact Nat.and_le_right
  · exact Nat.le_add_right 100 _
  · show 100 + lcg (lcg (lcg (lcg r))) % 100 ≤ 199
    have h100 : lcg (lcg (lcg (lcg r))) % 100 < 100 := Nat.mod_lt _ (by omega)
    omega
  · exact Nat.mod_lt _ (by omega)

/-- Every channel produced by the draw loop is in range. -/
theorem drawChannels_ranges :
    ∀ (n r : Nat), ∀ ch ∈ (drawChannels n r).1,
      ch.drum_part < 3 ∧ ch.x ≤ 255 ∧ ch.y ≤ 255 ∧
      100 ≤ ch.density ∧ ch.density ≤ 199 ∧
      ch.velocity_bits < 4294967296 := by
  intro n
  induction n with
  | zero => intro r ch hm; simp [drawChannels] at hm
  | succ k ih =>
    intro r ch hm
    have hm2 : ch = (drawChannel r).1 ∨
        ch ∈ (drawChannels k (drawChannel r).2).1 := by
      simpa [drawChannels] using hm
    rcases hm2 with h | h
    · rw [h]; exact drawChannel_ranges r
    · exact ih _ ch h

/-- Tick reads and writes nothing outside the core sequencer fields:
two states that agree on them produce the same event and agree again
after a call. -/
theorem Tick_congr (o : Oracle) (s1 s2 : GenState)
    (hch : s1.channels = s2.channels)
    (hupp : s1.us_per_pulse = s2.us_per_pulse)
    (hacc : s1.us_accumulator = s2.us_accumulator)
    (hcs : s1.current_step = s2.current_step)
    (hpis : s1.pulse_in_step = s2.pulse_in_step)
    (hse : s1.step_evaluated = s2.step_evaluated)
    (hgp : s1.grids_pulse = s2.grids_pulse)
    (hgs : s1.grids_step = s2.grids_step) :
    (Tick o s1).1 = (Tick o s2).1 ∧
    (Tick o s1).2.channels = (Tick o s2).2.channels ∧
    (Tick o s1).2.us_per_pulse = (Tick o s2).2.us_per_pulse ∧
    (Tick o s1).2.us_accumulator = (Tick o s2).2.us_accumulator ∧
    (Tick o s1).2.current_step = (Tick o s2).2.current_step ∧
    (Tick o s1).2.pulse_in_step = (Tick o s2).2.pulse_in_step ∧
    (Tick o s1).2.step_evaluated = (Tick o s2).2.step_evaluated ∧
    (Tick o s1).2.grids_pulse = (Tick o s2).2.grids_pulse ∧
    (Tick o s1).2.grids_step = (Tick o s2).2.grids_step := by
  simp only [Tick, hch, hupp, hacc, hcs, hpis, hse, hgp, hgs]
  split_ifs <;> simp

/-- Two states agreeing on the core sequencer fields produce identical
fire-event traces of any length. -/
theorem runTicks_congr (o : Oracle) :
    ∀ (n : Nat) (s1 s2 : GenState),
      s1.channels = s2.channels →
      s1.us_per_pulse = s2.us_per_pulse →
      s1.us_accumulator = s2.us_accumulator →
      s1.current_step = s2.current_step →
      s1.pulse_in_step = s2.pulse_in_step →
      s1.step_evaluated = s2.step_evaluated →
      s1.grids_pulse = s2.grids_pulse →
      s1.grids_step = s2.grids_step →
      runTicks o n s1 = runTicks o n s2 := by
  intro n
  induction n with
  | zero => intro s1 s2 _ _ _ _ _ _ _ _; rfl
  | succ k ih =>
    intro s1 s2 h1 h2 h3 h4 h5 h6 h7 h8
    obtain ⟨e, c1, c2, c3, c4, c5, c6, c7, c8⟩ :=
      Tick_congr o s1 s2 h1 h2 h3 h4 h5 h6 h7 h8
    show (Tick o s1).1 :: runTicks o k (Tick o s1).2 =
      (Tick o s2).1 :: runTicks o k (Tick o s2).2
    rw [e, ih (Tick o s1).2 (Tick o s2).2 c1 c2 c3 c4 c5 c6 c7 c8]

/-- The 41 successive SimpleRand steps one Randomize call performs:
five draws (drum_part, x, y, density, velocity_bits) for each of the
eight channels, plus one final draw reseeding the grids generator. -/
def lcg41 (x : Nat) : Nat :=
  lcg (lcg (lcg (lcg (lcg (lcg (lcg (lcg (lcg (lcg (lcg (lcg (lcg (lcg (lcg (lcg (lcg (lcg (lcg (lcg (lcg (lcg (lcg (lcg (lcg (lcg (lcg (lcg (lcg (lcg (lcg (lcg (lcg (lcg (lcg (lcg (lcg (lcg (lcg (lcg (lcg x))))))))))))))))))))))))))))))))))))))))

/-- Claim C7: two runs of Randomize from identical generator seeds yield
identical parameter sets for all eight channels and identical subsequent
fire events for the same oracle (the timing fields Randomize does not
touch being equal as well); every drawn parameter lies in its stated
range; one channel draw is five successive generator steps and the whole
call advances the generator exactly once per draw, 41 successive steps
in total. -/
theorem claim_C7_randomize (s1 s2 : GenState)
    (hrng : s1.rng_state = s2.rng_state) :
    (Randomize s1).channels = (Randomize s2).channels ∧
    (Randomize s1).rng_state = (Randomize s2).rng_state ∧
    (∀ ch ∈ (Randomize s1).channels,
      ch.drum_part < 3 ∧ ch.x ≤ 255 ∧ ch.y ≤ 255 ∧
      100 ≤ ch.density ∧ ch.density ≤ 199 ∧
      ch.velocity_bits < 4294967296) ∧
    ((Randomize s1).rng_state = lcg41 s1.rng_state ∧
      (∀ r, (drawChannel r).2 = lcg (lcg (lcg (lcg (lcg r)))))) ∧
    (s1.us_per_pulse = s2.us_per_pulse → s1.us_accumulator = s2.us_accumulator →
      ∀ (o : Oracle) (n : Nat),
        runTicks o n (Randomize s1) = runTicks o n (Randomize s2)) := by
  refine ⟨?_, ?_, ?_, ⟨rfl, fun r => rfl⟩, ?_⟩
  · show (drawChannels kNumChannels s1.rng_state).1 =
      (drawChannels kNumChannels s2.rng_state).1
    rw [hrng]
  · show lcg (drawChannels kNumChannels s1.rng_state).2 =
      lcg (drawChannels kNumChannels s2.rng_state).2
    rw [hrng]
  · intro ch hm
    exact drawChannels_ranges kNumChannels s1.rng_state ch hm
  · intro hupp hacc o n
    refine runTicks_congr o n (Randomize s1) (Randomize s2) ?_ ?_ ?_ rfl rfl
      rfl rfl rfl
    · show (drawChannels kNumChannels s1.rng_state).1 =
        (drawChannels kNumChannels s2.rng_state).1
      rw [hrng]
    · exact hupp
    · exact hacc

/-- Witness for claim C7 at a concrete seed: the generator state after
Randomize is the 41-fold generator image of the seed. -/
theorem claim_C7_witness :
    demoGen.rng_state = demoGen.rng_state ∧
    (Randomize demoGen).channels = (Randomize demoGen).channels ∧
    (Randomize demoGen).rng_state = lcg41 demoGen.rng_state :=
  ⟨rfl, (claim_C7_randomize demoGen demoGen rfl).1,
   (claim_C7_randomize demoGen demoGen rfl).2.2.2.1.1⟩

end MidiToSolenoid
